import Mathlib

/-!
Verification of the distributed n-body simulation `nbody-mpi.c`.

The C program is embedded shallowly over the rationals:
* single-precision floats become `ℚ` (idealized exact arithmetic);
* the C math library calls `sqrtf`, `cosf`, `sinf` and the constant `M_PI`
  become the fields of an explicit `MathLib` parameter, so every theorem
  quantifies over the mathematical functions the program links against;
* the C library `rand()` becomes an explicit stream `rands : ℕ → ℕ` of raw
  values (the program never calls `srand`, so a run always reads the same
  deterministic stream, value `rands k` at the k-th call);
* the leader process (MPI rank 0), which produces all of the program output,
  is modelled as the pure function `runLeader`; its `stdout` is a list of
  lines, each line being the list of numbers printed on it;
* `assert` failure and `exit(EXIT_FAILURE)` are both modelled as the
  `RunOutcome.fail` constructor, carrying the output emitted before the
  fatal stop.
-/

namespace NBody

/-- Mirror of `body_t` (file `nbody-mpi.c`, lines 14-19): position, current
acceleration, velocity and mass of one point mass. -/
structure Body where
  x : ℚ
  y : ℚ
  ax : ℚ
  ay : ℚ
  vx : ℚ
  vy : ℚ
  mass : ℚ
deriving DecidableEq

/-- Placeholder body used to make list indexing total; never read on the
in-bounds executions the theorems are about. -/
def body0 : Body := ⟨0, 0, 0, 0, 0, 0, 0⟩

/-- The mathematical functions the C program obtains from `math.h`:
`sqrtf`, `cosf`, `sinf` and the constant `M_PI`. They are parameters of the
embedding; theorems that need a property of `sqrtf` (such as positivity on
positive arguments) take it as an explicit hypothesis. -/
structure MathLib where
  sqrt : ℚ → ℚ
  cos : ℚ → ℚ
  sin : ℚ → ℚ
  pi : ℚ

/-- Glibc value of `RAND_MAX`, the largest value `rand()` can return. -/
def RAND_MAX : ℕ := 2147483647

/-- Mirror of `unit_random` (lines 74-77): the k-th call returns
`rand() / RAND_MAX` where `rands k` is the k-th raw `rand()` value. -/
def unit_random (rands : ℕ → ℕ) (k : ℕ) : ℚ :=
  (rands k : ℚ) / (RAND_MAX : ℚ)

/-- Mirror of `generate_debug_data` (lines 112-131). Body `i` consumes the
five `unit_random()` calls `5*i .. 5*i+4`, in the source order: one for the
angle jitter, one each for `x`, `y`, the mass factor, and the velocity
magnitude factor. -/
def generate_debug_data (M : MathLib) (rands : ℕ → ℕ) (scale m0 : ℚ)
    (body_count : ℕ) : List Body :=
  (List.range body_count).map (fun (i : ℕ) =>
    let angle : ℚ :=
      (i : ℚ) / (body_count : ℚ) * 2 * M.pi +
        (unit_random rands (5 * i) - 1/2) * (1/2)
    { x := unit_random rands (5 * i + 1)
      y := unit_random rands (5 * i + 2)
      ax := 0
      ay := 0
      vx := M.cos angle * scale * unit_random rands (5 * i + 4)
      vy := M.sin angle * scale * unit_random rands (5 * i + 4)
      mass := m0 * (unit_random rands (5 * i + 3) + 1/2) })

/-- Mirror of `calculate_newton_gravity_acceleration` (lines 133-158), with
the run constant `simulation_softening_length_squared` passed explicitly as
`soft2`. Returns the pair written to the output parameters. -/
def calculate_newton_gravity_acceleration (M : MathLib) (soft2 : ℚ)
    (first_body second_body : Body) : ℚ × ℚ :=
  let galactic_plane_r_x := second_body.x - first_body.x
  let galactic_plane_r_y := second_body.y - first_body.y
  let distance_squared :=
    (galactic_plane_r_x * galactic_plane_r_x +
     galactic_plane_r_y * galactic_plane_r_y) + soft2
  let distance_squared_cubed :=
    distance_squared * distance_squared * distance_squared
  let inverse := 1 / M.sqrt distance_squared_cubed
  let scale := second_body.mass * inverse
  (0 + galactic_plane_r_x * scale, 0 + galactic_plane_r_y * scale)

/-- Force kernel written from the specification text: displacement is
`target.position - source.position` component-wise, `distance_sq` is the
squared displacement norm plus the squared softening length,
`inverse_cubed = 1 / sqrt(distance_sq^3)`, and the result is
`displacement * target.mass * inverse_cubed`. -/
def specForce (M : MathLib) (softening_length : ℚ)
    (source target : Body) : ℚ × ℚ :=
  let dispx := target.x - source.x
  let dispy := target.y - source.y
  let distance_sq := dispx ^ 2 + dispy ^ 2 + softening_length ^ 2
  let inverse_cubed := 1 / M.sqrt (distance_sq ^ 3)
  (dispx * target.mass * inverse_cubed, dispy * target.mass * inverse_cubed)

/-- The quantity the force kernel divides by: `sqrtf` of the softened
squared distance cubed (the denominator of `inverse` at line 152). -/
def gravityDenominator (M : MathLib) (soft2 : ℚ)
    (first_body second_body : Body) : ℚ :=
  let galactic_plane_r_x := second_body.x - first_body.x
  let galactic_plane_r_y := second_body.y - first_body.y
  let distance_squared :=
    (galactic_plane_r_x * galactic_plane_r_x +
     galactic_plane_r_y * galactic_plane_r_y) + soft2
  M.sqrt (distance_squared * distance_squared * distance_squared)

/-- Mirror of `integrate` (lines 160-166): the velocity components are
updated from the acceleration first, then the position is updated using the
already-updated velocity. -/
def integrate (body : Body) (delta_time : ℚ) : Body :=
  let vx := body.vx + body.ax * delta_time
  let vy := body.vy + body.ay * delta_time
  let x := body.x + vx * delta_time
  let y := body.y + vy * delta_time
  { body with x := x, y := y, vx := vx, vy := vy }

/-- C1: for every math library, softening length and pair of bodies, the
force kernel of the source computes exactly the specified acceleration:
displacement times target mass times `1 / sqrt((|displacement|^2 +
softening_length^2)^3)`, with the squared softening length precomputed. -/
theorem force_kernel_matches_spec (M : MathLib) (softening_length : ℚ)
    (source target : Body) :
    calculate_newton_gravity_acceleration M
        (softening_length * softening_length) source target
      = specForce M softening_length source target := by
  unfold calculate_newton_gravity_acceleration specForce
  have harg :
      ((target.x - source.x) * (target.x - source.x) +
        (target.y - source.y) * (target.y - source.y) +
          softening_length * softening_length) *
        ((target.x - source.x) * (target.x - source.x) +
          (target.y - source.y) * (target.y - source.y) +
            softening_length * softening_length) *
        ((target.x - source.x) * (target.x - source.x) +
          (target.y - source.y) * (target.y - source.y) +
            softening_length * softening_length)
      = ((target.x - source.x) ^ 2 + (target.y - source.y) ^ 2 +
          softening_length ^ 2) ^ 3 := by ring
  simp only [harg, Prod.mk.injEq]
  constructor <;> ring

/-- C2 (amended): `integrate` performs, in order, the velocity update
`v += a * dt` followed by the position update `x += v * dt` using the new
velocity, and leaves acceleration and mass unchanged; consequently, whenever
the acceleration is nonzero and `delta_time` is nonzero, the new position
differs from `old_position + old_velocity * delta_time`. -/
theorem integrate_velocity_before_position (b : Body) (dt : ℚ) :
    integrate b dt =
      { x := b.x + (b.vx + b.ax * dt) * dt
        y := b.y + (b.vy + b.ay * dt) * dt
        ax := b.ax
        ay := b.ay
        vx := b.vx + b.ax * dt
        vy := b.vy + b.ay * dt
        mass := b.mass }
    ∧ ((b.ax, b.ay) ≠ ((0 : ℚ), (0 : ℚ)) → dt ≠ 0 →
        ((integrate b dt).x, (integrate b dt).y)
          ≠ (b.x + b.vx * dt, b.y + b.vy * dt)) := by
  constructor
  · rfl
  · intro hacc hdt hpos
    apply hacc
    have hx : b.x + (b.vx + b.ax * dt) * dt = b.x + b.vx * dt :=
      congrArg Prod.fst hpos
    have hy : b.y + (b.vy + b.ay * dt) * dt = b.y + b.vy * dt :=
      congrArg Prod.snd hpos
    have hax : b.ax * (dt * dt) = 0 := by linarith [hx]
    have hay : b.ay * (dt * dt) = 0 := by linarith [hy]
    have hdt2 : dt * dt ≠ 0 := fun h => hdt (mul_self_eq_zero.mp h)
    have hax0 : b.ax = 0 := by
      rcases mul_eq_zero.mp hax with h | h
      · exact h
      · exact absurd h hdt2
    have hay0 : b.ay = 0 := by
      rcases mul_eq_zero.mp hay with h | h
      · exact h
      · exact absurd h hdt2
    rw [hax0, hay0]

/-- C2 counterexample: as stated, the claim quantifies over every
`delta_time`; at `delta_time = 0` a body with nonzero acceleration has
`new_position = old_position + old_velocity * 0`, so the claimed inequality
fails. -/
theorem integrate_zero_dt_counterexample :
    ((⟨0, 0, 1, 1, 0, 0, 1⟩ : Body).ax, (⟨0, 0, 1, 1, 0, 0, 1⟩ : Body).ay)
        ≠ ((0 : ℚ), (0 : ℚ))
    ∧ ((integrate ⟨0, 0, 1, 1, 0, 0, 1⟩ 0).x,
        (integrate ⟨0, 0, 1, 1, 0, 0, 1⟩ 0).y)
      = ((⟨0, 0, 1, 1, 0, 0, 1⟩ : Body).x +
          (⟨0, 0, 1, 1, 0, 0, 1⟩ : Body).vx * 0,
         (⟨0, 0, 1, 1, 0, 0, 1⟩ : Body).y +
          (⟨0, 0, 1, 1, 0, 0, 1⟩ : Body).vy * 0) := by
  with_unfolding_all decide

/-- C2 witness: at the concrete body with unit acceleration and
`delta_time = 1`, the hypotheses of the amended claim hold and the
integrator moves the position away from the velocity-only prediction. -/
theorem integrate_velocity_before_position_witness :
    ((⟨0, 0, 1, 1, 0, 0, 1⟩ : Body).ax, (⟨0, 0, 1, 1, 0, 0, 1⟩ : Body).ay)
        ≠ ((0 : ℚ), (0 : ℚ))
    ∧ (1 : ℚ) ≠ 0
    ∧ ((integrate ⟨0, 0, 1, 1, 0, 0, 1⟩ 1).x,
        (integrate ⟨0, 0, 1, 1, 0, 0, 1⟩ 1).y)
      ≠ ((⟨0, 0, 1, 1, 0, 0, 1⟩ : Body).x +
          (⟨0, 0, 1, 1, 0, 0, 1⟩ : Body).vx * 1,
         (⟨0, 0, 1, 1, 0, 0, 1⟩ : Body).y +
          (⟨0, 0, 1, 1, 0, 0, 1⟩ : Body).vy * 1) :=
  ⟨by with_unfolding_all decide, by with_unfolding_all decide,
    (integrate_velocity_before_position ⟨0, 0, 1, 1, 0, 0, 1⟩ 1).2
      (by with_unfolding_all decide) (by with_unfolding_all decide)⟩

/-- Sum of the componentwise force-kernel contributions on the body at
index `i`, exactly as the inner loop at lines 263-278 accumulates it over
the current global store: every index `j` of the store is visited in order,
the identity pair `j = i` (the pointer comparison at line 266) is skipped,
and the kernel outputs are added into the running totals. -/
def bodyForceSum (M : MathLib) (soft2 : ℚ) (store : List Body) (i : ℕ) :
    ℚ × ℚ :=
  (List.range store.length).foldl
    (fun total j =>
      if j = i then total
      else
        let a := calculate_newton_gravity_acceleration M soft2
          (store.getD i body0) (store.getD j body0)
        (total.1 + a.1, total.2 + a.2))
    (0, 0)

/-- Componentwise sum of a list of acceleration pairs. -/
def addPairs (l : List (ℚ × ℚ)) : ℚ × ℚ :=
  l.foldl (fun total a => (total.1 + a.1, total.2 + a.2)) (0, 0)

/-- Acceleration on the body at index `i` written from the specification
text: the sum of the Force Kernel contributions over every other body of
the entire global store, with the identity pair explicitly skipped. -/
def specAccel (M : MathLib) (soft2 : ℚ) (store : List Body) (i : ℕ) :
    ℚ × ℚ :=
  addPairs
    (((List.range store.length).filter (fun j => j != i)).map
      (fun j => calculate_newton_gravity_acceleration M soft2
        (store.getD i body0) (store.getD j body0)))

/-- Mirror of the first per-step loop of a worker (lines 259-284): for each
owned index `i = start + t` in order, the acceleration sum is computed from
the worker's current copy of the global store, written into that store at
index `i`, and the updated record is appended to the local slice buffer
(the `*p++ = *first_body` copy). Returns the mutated store and the local
slice. -/
def stepPhase1 (M : MathLib) (soft2 : ℚ) (start len : ℕ)
    (store : List Body) : List Body × List Body :=
  (List.range len).foldl
    (fun acc t =>
      let st := acc.1
      let i := start + t
      let total := bodyForceSum M soft2 st i
      let updated := { st.getD i body0 with ax := total.1, ay := total.2 }
      (st.set i updated, acc.2 ++ [updated]))
    (store, [])

/-- Mirror of one worker's whole compute part of a STEP (lines 259-291):
the acceleration pass over the owned slice followed by the integration pass
over the local slice buffer. Returns the worker's updated local slice, the
data it contributes to `MPI_Allgather`. -/
def workerStep (M : MathLib) (soft2 dt : ℚ) (start len : ℕ)
    (store : List Body) : List Body :=
  ((stepPhase1 M soft2 start len store).2).map (fun b => integrate b dt)

/-- A worker's slice computation written from the specification text: for
each owned body in slice order, store as its acceleration the sum of the
Force Kernel contributions over every other body of the entire global
store (identity pair skipped), then apply the Integrator to that body,
before moving on to the next owned body. -/
def workerStepSpec (M : MathLib) (soft2 dt : ℚ) (start len : ℕ)
    (store : List Body) : List Body :=
  (List.range len).map (fun t =>
    integrate
      { store.getD (start + t) body0 with
        ax := (specAccel M soft2 store (start + t)).1
        ay := (specAccel M soft2 store (start + t)).2 }
      dt)

/-- Mirror of `bodies_per_process = body_count / w_size` (line 234). -/
def bodies_per_process (body_count w_size : ℕ) : ℕ := body_count / w_size

/-- Mirror of `slice_start = rank * bodies_per_process` (line 248). -/
def slice_start (rank bpp : ℕ) : ℕ := rank * bpp

/-- Mirror of one STEP of the whole machine: every worker computes its own
slice from the same post-barrier global store, and `MPI_Allgather`
(line 294) concatenates the slices back, in rank order, into the new
global store held identically by every worker. -/
def allgatherStep (M : MathLib) (soft2 dt : ℚ) (body_count w_size : ℕ)
    (store : List Body) : List Body :=
  (List.range w_size).flatMap (fun rank =>
    workerStep M soft2 dt
      (slice_start rank (bodies_per_process body_count w_size))
      (bodies_per_process body_count w_size) store)

/-- The fields of a body the force kernel reads: position and mass. -/
def kinematicData (b : Body) : ℚ × ℚ × ℚ := (b.x, b.y, b.mass)

lemma calc_accel_congr (M : MathLib) (soft2 : ℚ) {a a2 b b2 : Body}
    (ha : kinematicData a = kinematicData a2)
    (hb : kinematicData b = kinematicData b2) :
    calculate_newton_gravity_acceleration M soft2 a b
      = calculate_newton_gravity_acceleration M soft2 a2 b2 := by
  simp only [kinematicData, Prod.mk.injEq] at ha hb
  obtain ⟨hax, hay, -⟩ := ha
  obtain ⟨hbx, hby, hbm⟩ := hb
  simp only [calculate_newton_gravity_acceleration, hax, hay, hbx, hby, hbm]

lemma foldl_skip_eq_filter (f : ℕ → ℚ × ℚ) (i : ℕ) :
    ∀ (l : List ℕ) (z : ℚ × ℚ),
      l.foldl
          (fun total j =>
            if j = i then total else (total.1 + (f j).1, total.2 + (f j).2))
          z
        = (l.filter (fun j => j != i)).foldl
          (fun total j => (total.1 + (f j).1, total.2 + (f j).2)) z := by
  intro l
  induction l with
  | nil => intro z; rfl
  | cons j l ih =>
    intro z
    by_cases h : j = i
    · simp [h, List.filter_cons, ih]
    · simp [h, List.filter_cons, ih]

lemma bodyForceSum_eq_specAccel (M : MathLib) (soft2 : ℚ)
    (store : List Body) (i : ℕ) :
    bodyForceSum M soft2 store i = specAccel M soft2 store i := by
  unfold bodyForceSum specAccel addPairs
  rw [List.foldl_map]
  exact foldl_skip_eq_filter
    (fun j => calculate_newton_gravity_acceleration M soft2
      (store.getD i body0) (store.getD j body0)) i (List.range store.length)
    (0, 0)

lemma bodyForceSum_congr (M : MathLib) (soft2 : ℚ) {st store : List Body}
    (hlen : st.length = store.length)
    (hk : ∀ j, kinematicData (st.getD j body0)
            = kinematicData (store.getD j body0)) (i : ℕ) :
    bodyForceSum M soft2 st i = bodyForceSum M soft2 store i := by
  unfold bodyForceSum
  rw [hlen]
  apply List.foldl_ext
  intro total j _
  by_cases h : j = i
  · simp [h]
  · simp only [h, if_false]
    rw [calc_accel_congr M soft2 (hk i) (hk j)]

lemma getD_set (l : List Body) (i j : ℕ) (a : Body) :
    (l.set i a).getD j body0
      = if i = j ∧ i < l.length then a else l.getD j body0 := by
  simp only [List.getD_eq_getElem?_getD, List.getElem?_set]
  by_cases h1 : i = j
  · subst h1
    by_cases h2 : i < l.length
    · simp [h2]
    · simp only [h2, and_false, if_false, if_true, Option.getD_none]
      rw [List.getElem?_eq_none (Nat.le_of_not_lt h2)]
      simp
  · simp [h1]

lemma stepPhase1_spec (M : MathLib) (soft2 : ℚ) (start : ℕ)
    (store : List Body) :
    ∀ len : ℕ,
      (stepPhase1 M soft2 start len store).1.length = store.length
      ∧ (∀ j, kinematicData ((stepPhase1 M soft2 start len store).1.getD j body0)
            = kinematicData (store.getD j body0))
      ∧ (∀ j, j < start ∨ start + len ≤ j →
            (stepPhase1 M soft2 start len store).1.getD j body0
              = store.getD j body0)
      ∧ (stepPhase1 M soft2 start len store).2
          = (List.range len).map (fun t =>
              { store.getD (start + t) body0 with
                ax := (specAccel M soft2 store (start + t)).1
                ay := (specAccel M soft2 store (start + t)).2 }) := by
  intro len
  induction len with
  | zero => exact ⟨rfl, fun j => rfl, fun j _ => rfl, rfl⟩
  | succ len ih =>
    obtain ⟨ihlen, ihk, ihout, ihloc⟩ := ih
    have hstep :
        stepPhase1 M soft2 start (len + 1) store
          = (let st := (stepPhase1 M soft2 start len store).1
             let i := start + len
             let total := bodyForceSum M soft2 st i
             let updated :=
               { st.getD i body0 with ax := total.1, ay := total.2 }
             (st.set i updated,
              (stepPhase1 M soft2 start len store).2 ++ [updated])) := by
      unfold stepPhase1
      rw [List.range_succ, List.foldl_append]
      rfl
    have hread :
        (stepPhase1 M soft2 start len store).1.getD (start + len) body0
          = store.getD (start + len) body0 :=
      ihout (start + len) (Or.inr le_rfl)
    have hsum :
        bodyForceSum M soft2 (stepPhase1 M soft2 start len store).1
            (start + len)
          = specAccel M soft2 store (start + len) := by
      rw [bodyForceSum_congr M soft2 ihlen ihk (start + len),
        bodyForceSum_eq_specAccel]
    have hupd :
        { (stepPhase1 M soft2 start len store).1.getD (start + len) body0 with
            ax := (bodyForceSum M soft2 (stepPhase1 M soft2 start len store).1
                    (start + len)).1
            ay := (bodyForceSum M soft2 (stepPhase1 M soft2 start len store).1
                    (start + len)).2 }
          = { store.getD (start + len) body0 with
              ax := (specAccel M soft2 store (start + len)).1
              ay := (specAccel M soft2 store (start + len)).2 } := by
      rw [hread, hsum]
    rw [hstep]
    simp only []
    refine ⟨?_, ?_, ?_, ?_⟩
    · rw [List.length_set]
      exact ihlen
    · intro j
      rw [getD_set]
      by_cases hc : start + len = j ∧ start + len <
          (stepPhase1 M soft2 start len store).1.length
      · rw [if_pos hc]
        obtain ⟨hij, -⟩ := hc
        subst hij
        rw [hupd]
        simp [kinematicData]
      · rw [if_neg hc]
        exact ihk j
    · intro j hj
      have hne : ¬(start + len = j ∧ start + len <
          (stepPhase1 M soft2 start len store).1.length) := by
        rintro ⟨rfl, -⟩
        rcases hj with h | h
        · omega
        · omega
      rw [getD_set, if_neg hne]
      apply ihout
      rcases hj with h | h
      · exact Or.inl h
      · exact Or.inr (by omega)
    · rw [ihloc, hupd, List.range_succ, List.map_append]
      rfl

lemma workerStep_eq (M : MathLib) (soft2 dt : ℚ) (start len : ℕ)
    (store : List Body) :
    workerStep M soft2 dt start len store
      = workerStepSpec M soft2 dt start len store := by
  unfold workerStep workerStepSpec
  rw [(stepPhase1_spec M soft2 start store len).2.2.2, List.map_map]
  rfl

/-- C3: in each STEP, each worker handles exactly the indices of its own
slice; for each owned body, the stored acceleration is the sum of the Force
Kernel contributions over every other body of the entire global store with
the identity pair explicitly skipped, and the Integrator is then applied to
that body before the next owned body is processed. The code (which first
computes all owned accelerations and then integrates the local copies)
produces exactly the slices of this per-body specification. -/
theorem step_matches_per_body_spec (M : MathLib) (soft2 dt : ℚ)
    (body_count w_size : ℕ) (store : List Body) :
    allgatherStep M soft2 dt body_count w_size store
      = (List.range w_size).flatMap (fun rank =>
          workerStepSpec M soft2 dt
            (slice_start rank (bodies_per_process body_count w_size))
            (bodies_per_process body_count w_size) store)
    ∧ ∀ start len : ℕ,
        workerStep M soft2 dt start len store
          = workerStepSpec M soft2 dt start len store := by
  constructor
  · unfold allgatherStep
    simp only [workerStep_eq]
  · intro start len
    exact workerStep_eq M soft2 dt start len store

/-- Mirror of the main simulation loop (lines 251-308) as run by the
leader: `iterations` times, one `allgatherStep` followed by the leader
appending every body's `(ax, ay)` pair, in index order, to the trace buffer
(lines 298-307). Returns the final store and the accumulated trace. -/
def simulate (M : MathLib) (soft2 dt : ℚ) (body_count w_size iterations : ℕ)
    (store0 : List Body) : List Body × List (ℚ × ℚ) :=
  (List.range iterations).foldl
    (fun acc _ =>
      let nextStore := allgatherStep M soft2 dt body_count w_size acc.1
      (nextStore, acc.2 ++ nextStore.map (fun b => (b.ax, b.ay))))
    (store0, [])

/-- Mirror of `size_t iterations = time_period / delta_time` (line 238):
floating-point division truncated to an unsigned integer, i.e. the floor of
the quotient for the nonnegative quotients the program is defined on. -/
def iterationsOf (time_period delta_time : ℚ) : ℕ :=
  (Rat.floor (time_period / delta_time)).toNat

/-- The startup parameters parsed from `argv[1..6]` (lines 197-207). -/
structure Config where
  time_period : ℚ
  delta_time : ℚ
  body_count : ℕ
  initial_body_mass : ℚ
  softening_length : ℚ
  debug_acceleration_scale : ℚ

/-- The generator scale actually used: `argv[6]` when given (`argc > 6`),
otherwise the default `100.0f` (lines 11, 23-24, 205-207). -/
def effScale (argc : ℕ) (cfg : Config) : ℚ :=
  if 6 < argc then cfg.debug_acceleration_scale else 100

/-- The initial Body Store produced on the leader by
`generate_debug_data(bodies, body_count)` (line 214). -/
def initialStore (M : MathLib) (rands : ℕ → ℕ) (argc : ℕ)
    (cfg : Config) : List Body :=
  generate_debug_data M rands (effScale argc cfg) cfg.initial_body_mass
    cfg.body_count

/-- The run constant `simulation_softening_length_squared` (line 203). -/
def runSoft2 (cfg : Config) : ℚ :=
  cfg.softening_length * cfg.softening_length

/-- The trace the leader accumulates over the whole run. -/
def leaderTrace (M : MathLib) (cfg : Config) (w_size : ℕ)
    (store0 : List Body) : List (ℚ × ℚ) :=
  (simulate M (runSoft2 cfg) cfg.delta_time cfg.body_count w_size
    (iterationsOf cfg.time_period cfg.delta_time) store0).2

/-- The three header lines `body_count`, `time_period`, `delta_time`
(line 216); each output line is modelled as the list of numbers printed on
it. -/
def headerLines (body_count : ℕ) (time_period delta_time : ℚ) :
    List (List ℚ) :=
  [[(body_count : ℚ)], [time_period], [delta_time]]

/-- The initial-state dump (lines 217-229): four lines per body, in index
order. -/
def bodyDumpLines (store : List Body) : List (List ℚ) :=
  store.flatMap (fun b => [[b.x, b.y], [b.ax, b.ay], [b.vx, b.vy], [b.mass]])

/-- The trace section of the output (lines 311-316): one line `ax ay` per
trace entry. -/
def traceLines (trace : List (ℚ × ℚ)) : List (List ℚ) :=
  trace.map (fun p => [p.1, p.2])

/-- Outcome of a run of the leader process: a successful exit with the full
stdout, or a fatal stop (failure exit status or `assert` abort) with the
stdout emitted before the stop. -/
inductive RunOutcome where
  | ok (output : List (List ℚ))
  | fail (output : List (List ℚ))
deriving DecidableEq

/-- Mirror of `main` (lines 168-334) as observed on the leader (rank 0),
which produces all of the program output: the argument-count check
(lines 180-195, failure exit with empty stdout), then data generation and
the header and initial-state dump (lines 212-230), then the divisibility
`assert` (line 232, fatal abort after the dump was already printed), then
the simulation loop and the trace dump. -/
def runLeader (M : MathLib) (rands : ℕ → ℕ) (w_size argc : ℕ)
    (cfg : Config) : RunOutcome :=
  if argc < 6 then RunOutcome.fail []
  else
    let store0 := initialStore M rands argc cfg
    let out0 := headerLines cfg.body_count cfg.time_period cfg.delta_time
      ++ bodyDumpLines store0
    if cfg.body_count % w_size = 0 then
      RunOutcome.ok (out0 ++ traceLines (leaderTrace M cfg w_size store0))
    else RunOutcome.fail out0

lemma range_flatMap_partition (q : ℕ) :
    ∀ w : ℕ,
      (List.range w).flatMap (fun r => (List.range q).map (fun t => r * q + t))
        = List.range (w * q) := by
  intro w
  induction w with
  | zero => simp
  | succ w ih =>
    rw [List.range_succ, List.flatMap_append, ih, Nat.succ_mul,
      List.range_add]
    simp

lemma sum_map_const_nat {α : Type} (l : List α) (c : ℕ) :
    (l.map (fun _ => c)).sum = l.length * c := by
  induction l with
  | nil => simp
  | cons a l ih => simp [ih, Nat.succ_mul, Nat.add_comm]

lemma length_workerStep (M : MathLib) (soft2 dt : ℚ) (start len : ℕ)
    (store : List Body) :
    (workerStep M soft2 dt start len store).length = len := by
  rw [workerStep_eq]
  unfold workerStepSpec
  simp

lemma length_allgatherStep (M : MathLib) (soft2 dt : ℚ)
    (body_count w_size : ℕ) (store : List Body)
    (h : w_size ∣ body_count) :
    (allgatherStep M soft2 dt body_count w_size store).length = body_count := by
  unfold allgatherStep
  rw [List.length_flatMap]
  have hmap :
      (List.range w_size).map
          (List.length ∘ fun rank =>
            workerStep M soft2 dt
              (slice_start rank (bodies_per_process body_count w_size))
              (bodies_per_process body_count w_size) store)
        = (List.range w_size).map
            (fun _ => bodies_per_process body_count w_size) := by
    apply List.map_congr_left
    intro r _
    exact length_workerStep M soft2 dt _ _ store
  rw [hmap, sum_map_const_nat, List.length_range]
  exact Nat.mul_div_cancel' h

lemma simulate_eq (M : MathLib) (soft2 dt : ℚ) (body_count w_size : ℕ) :
    ∀ (iterations : ℕ) (store0 : List Body),
      simulate M soft2 dt body_count w_size iterations store0
        = ((allgatherStep M soft2 dt body_count w_size)^[iterations] store0,
           (List.range iterations).flatMap (fun k =>
             ((allgatherStep M soft2 dt body_count w_size)^[k + 1] store0).map
               (fun b => (b.ax, b.ay)))) := by
  intro iterations store0
  induction iterations with
  | zero => rfl
  | succ m ih =>
    unfold simulate at ih ⊢
    rw [List.range_succ, List.foldl_append, ih]
    simp only [List.foldl_cons, List.foldl_nil, List.flatMap_append,
      Function.iterate_succ_apply']
    simp

lemma length_iterate_store (M : MathLib) (soft2 dt : ℚ)
    (body_count w_size : ℕ) (store0 : List Body)
    (h : w_size ∣ body_count) (k : ℕ) :
    ((allgatherStep M soft2 dt body_count w_size)^[k + 1] store0).length
      = body_count := by
  rw [Function.iterate_succ_apply']
  exact length_allgatherStep M soft2 dt body_count w_size _ h

lemma length_simulate_trace (M : MathLib) (soft2 dt : ℚ)
    (body_count w_size iterations : ℕ) (store0 : List Body)
    (h : w_size ∣ body_count) :
    (simulate M soft2 dt body_count w_size iterations store0).2.length
      = iterations * body_count := by
  rw [simulate_eq]
  rw [List.length_flatMap]
  have hmap :
      (List.range iterations).map
          (List.length ∘ fun k =>
            ((allgatherStep M soft2 dt body_count w_size)^[k + 1] store0).map
              (fun b => (b.ax, b.ay)))
        = (List.range iterations).map (fun _ => body_count) := by
    apply List.map_congr_left
    intro k _
    show (((allgatherStep M soft2 dt body_count w_size)^[k + 1] store0).map
      (fun b => (b.ax, b.ay))).length = body_count
    rw [List.length_map]
    exact length_iterate_store M soft2 dt body_count w_size store0 h k
  rw [hmap, sum_map_const_nat, List.length_range]

/-- Sample math library for concrete witnesses: every function is the
identity and `pi` is `0`; theorems never rely on these values except
through their explicitly stated hypotheses. -/
def M0 : MathLib := ⟨fun q => q, fun q => q, fun q => q, 0⟩

/-- Sample `rand()` stream returning `0` forever. -/
def rands0 : ℕ → ℕ := fun _ => 0

/-- Sample valid configuration: `time_period = 1`, `delta_time = 1`,
`body_count = 1`, `initial_body_mass = 1`, `softening_length = 1`,
default scale. -/
def cfgW : Config := ⟨1, 1, 1, 1, 1, 100⟩

/-- Sample configuration whose step count is zero (`delta_time` larger
than `time_period`). -/
def cfgW10 : Config := ⟨1, 2, 1, 1, 1, 100⟩

/-- C4: whenever the worker count divides the body count, the slices
`(slice_start rank bpp, bpp)` with `bpp = body_count / worker_count` cover
`[0, body_count)` exactly, with no gaps and no overlaps (their concatenation
in rank order is exactly the list of all indices); and when the worker
count does not divide the body count, the run fails fatally at the
divisibility assert. -/
theorem partitioner_covers_and_nondivisible_fatal
    (n w : ℕ) (hdvd : w ∣ n)
    (M : MathLib) (rands : ℕ → ℕ) (w2 argc : ℕ) (cfg : Config)
    (hargc : 6 ≤ argc) (hmod : cfg.body_count % w2 ≠ 0) :
    (List.range w).flatMap (fun rank =>
        (List.range (bodies_per_process n w)).map
          (fun t => slice_start rank (bodies_per_process n w) + t))
      = List.range n
    ∧ runLeader M rands w2 argc cfg
        = RunOutcome.fail (headerLines cfg.body_count cfg.time_period
            cfg.delta_time ++ bodyDumpLines (initialStore M rands argc cfg)) := by
  constructor
  · unfold slice_start bodies_per_process
    rw [range_flatMap_partition, Nat.mul_div_cancel' hdvd]
  · simp only [runLeader]
    rw [if_neg (by omega), if_neg hmod]

/-- C4 witness: with 4 bodies over 2 workers the two slices concatenate to
`[0, 4)`, and with 1 body over 2 workers the run aborts after printing the
header and the dump. -/
theorem partitioner_covers_witness :
    (List.range 2).flatMap (fun rank =>
        (List.range (bodies_per_process 4 2)).map
          (fun t => slice_start rank (bodies_per_process 4 2) + t))
      = List.range 4
    ∧ runLeader M0 rands0 2 6 cfgW
        = RunOutcome.fail (headerLines cfgW.body_count cfgW.time_period
            cfgW.delta_time ++ bodyDumpLines (initialStore M0 rands0 6 cfgW)) :=
  partitioner_covers_and_nondivisible_fatal 4 2 (by decide)
    M0 rands0 2 6 cfgW (by decide) (by with_unfolding_all decide)

/-- C5: a successful run emits the header, the initial dump, and then
exactly one line per trace entry; the step count is the floor of
`time_period / delta_time`; the trace has exactly
`iterations * body_count` entries; and it is ordered step-major then
body-index-minor, step `k` contributing the accelerations of every body of
the (post-exchange) global store after step `k`. -/
theorem trace_is_step_major_accelerations
    (M : MathLib) (rands : ℕ → ℕ) (w argc : ℕ) (cfg : Config)
    (hargc : 6 ≤ argc) (hmod : cfg.body_count % w = 0) :
    runLeader M rands w argc cfg
      = RunOutcome.ok
          ((headerLines cfg.body_count cfg.time_period cfg.delta_time
            ++ bodyDumpLines (initialStore M rands argc cfg))
            ++ traceLines (leaderTrace M cfg w (initialStore M rands argc cfg)))
    ∧ (0 ≤ cfg.time_period / cfg.delta_time →
        (iterationsOf cfg.time_period cfg.delta_time : ℤ)
          = ⌊cfg.time_period / cfg.delta_time⌋)
    ∧ (leaderTrace M cfg w (initialStore M rands argc cfg)).length
        = iterationsOf cfg.time_period cfg.delta_time * cfg.body_count
    ∧ leaderTrace M cfg w (initialStore M rands argc cfg)
        = (List.range (iterationsOf cfg.time_period cfg.delta_time)).flatMap
            (fun k =>
              ((allgatherStep M (runSoft2 cfg) cfg.delta_time cfg.body_count
                  w)^[k + 1] (initialStore M rands argc cfg)).map
                (fun b => (b.ax, b.ay))) := by
  refine ⟨?_, ?_, ?_, ?_⟩
  · simp only [runLeader]
    rw [if_neg (by omega), if_pos hmod]
  · intro hq
    unfold iterationsOf
    have h1 : Rat.floor (cfg.time_period / cfg.delta_time)
        = ⌊cfg.time_period / cfg.delta_time⌋ := by
      rw [Rat.floor_def', Rat.floor_def]
    rw [h1]
    exact Int.toNat_of_nonneg (Int.floor_nonneg.mpr hq)
  · unfold leaderTrace
    exact length_simulate_trace M (runSoft2 cfg) cfg.delta_time
      cfg.body_count w _ _ (Nat.dvd_of_mod_eq_zero hmod)
  · unfold leaderTrace
    rw [simulate_eq]

/-- C5 witness: at the concrete one-body, one-worker configuration with one
step, the trace length equals `iterations * body_count`. -/
theorem trace_is_step_major_witness :
    (leaderTrace M0 cfgW 1 (initialStore M0 rands0 6 cfgW)).length
      = iterationsOf cfgW.time_period cfgW.delta_time * cfgW.body_count :=
  (trace_is_step_major_accelerations M0 rands0 1 6 cfgW (by decide)
    (by with_unfolding_all decide)).2.2.1

/-- C6 (amended): an insufficient argument count is detected before any
output is produced and the process exits with failure status and empty
stdout; a body count not divisible by the worker count is likewise fatal
and is detected before any distributed computation (before the broadcast),
but only after the leader has already printed the header and the
initial-state dump, so that this partial output is produced. -/
theorem config_errors_are_fatal
    (M : MathLib) (rands : ℕ → ℕ) (w argc : ℕ) (cfg : Config)
    (hargc : argc < 6)
    (M2 : MathLib) (rands2 : ℕ → ℕ) (w2 argc2 : ℕ) (cfg2 : Config)
    (hargc2 : 6 ≤ argc2) (hmod2 : cfg2.body_count % w2 ≠ 0) :
    runLeader M rands w argc cfg = RunOutcome.fail []
    ∧ runLeader M2 rands2 w2 argc2 cfg2
        = RunOutcome.fail (headerLines cfg2.body_count cfg2.time_period
            cfg2.delta_time ++ bodyDumpLines (initialStore M2 rands2 argc2 cfg2)) := by
  constructor
  · simp only [runLeader]
    rw [if_pos hargc]
  · simp only [runLeader]
    rw [if_neg (by omega), if_neg hmod2]

/-- C6 witness: five arguments give a failure exit with empty output; one
body over two workers aborts with the header and dump already printed. -/
theorem config_errors_are_fatal_witness :
    runLeader M0 rands0 1 3 cfgW = RunOutcome.fail []
    ∧ runLeader M0 rands0 2 6 cfgW
        = RunOutcome.fail (headerLines cfgW.body_count cfgW.time_period
            cfgW.delta_time ++ bodyDumpLines (initialStore M0 rands0 6 cfgW)) :=
  config_errors_are_fatal M0 rands0 1 3 cfgW (by decide)
    M0 rands0 2 6 cfgW (by decide) (by with_unfolding_all decide)

/-- C6 counterexample: for the divisibility error (1 body, 2 workers,
`argc = 6`) the leader stops fatally with the header and the initial-state
dump already on stdout, so partial output is produced, contrary to the
claim that no partial output is produced for configuration errors. -/
theorem divisibility_error_partial_output_counterexample :
    runLeader M0 rands0 2 6 cfgW
      = RunOutcome.fail (headerLines cfgW.body_count cfgW.time_period
          cfgW.delta_time ++ bodyDumpLines (initialStore M0 rands0 6 cfgW))
    ∧ headerLines cfgW.body_count cfgW.time_period cfgW.delta_time
        ++ bodyDumpLines (initialStore M0 rands0 6 cfgW)
      ≠ ([] : List (List ℚ)) := by
  with_unfolding_all decide

/-- C10: when `floor(time_period / delta_time) = 0`, a valid run performs
no simulation steps: the leader prints the header and the full
initial-state dump, the trace section is empty, the final store is the
initial store, and the process exits successfully. -/
theorem zero_iterations_header_and_dump_only
    (M : MathLib) (rands : ℕ → ℕ) (w argc : ℕ) (cfg : Config)
    (hargc : 6 ≤ argc) (hmod : cfg.body_count % w = 0)
    (hzero : iterationsOf cfg.time_period cfg.delta_time = 0) :
    runLeader M rands w argc cfg
      = RunOutcome.ok (headerLines cfg.body_count cfg.time_period
          cfg.delta_time ++ bodyDumpLines (initialStore M rands argc cfg))
    ∧ leaderTrace M cfg w (initialStore M rands argc cfg) = []
    ∧ (simulate M (runSoft2 cfg) cfg.delta_time cfg.body_count w
        (iterationsOf cfg.time_period cfg.delta_time)
        (initialStore M rands argc cfg)).1 = initialStore M rands argc cfg := by
  have htr : leaderTrace M cfg w (initialStore M rands argc cfg) = [] := by
    unfold leaderTrace
    rw [hzero]
    rfl
  refine ⟨?_, htr, ?_⟩
  · simp only [runLeader]
    rw [if_neg (by omega), if_pos hmod, htr]
    simp [traceLines]
  · rw [hzero]
    rfl

/-- C10 witness: `time_period = 1`, `delta_time = 2` gives zero steps and a
successful run whose whole output is the header plus the dump. -/
theorem zero_iterations_witness :
    runLeader M0 rands0 1 6 cfgW10
      = RunOutcome.ok (headerLines cfgW10.body_count cfgW10.time_period
          cfgW10.delta_time ++ bodyDumpLines (initialStore M0 rands0 6 cfgW10)) :=
  (zero_iterations_header_and_dump_only M0 rands0 1 6 cfgW10 (by decide)
    (by with_unfolding_all decide) (by with_unfolding_all decide)).1

lemma generate_debug_data_congr (M : MathLib) (scale m0 : ℚ) (n : ℕ)
    {r1 r2 : ℕ → ℕ} (h : ∀ i, i < 5 * n → r1 i = r2 i) :
    generate_debug_data M r1 scale m0 n
      = generate_debug_data M r2 scale m0 n := by
  unfold generate_debug_data
  apply List.map_congr_left
  intro i hi
  rw [List.mem_range] at hi
  have h0 : r1 (5 * i) = r2 (5 * i) := h _ (by omega)
  have h1 : r1 (5 * i + 1) = r2 (5 * i + 1) := h _ (by omega)
  have h2 : r1 (5 * i + 2) = r2 (5 * i + 2) := h _ (by omega)
  have h3 : r1 (5 * i + 3) = r2 (5 * i + 3) := h _ (by omega)
  have h4 : r1 (5 * i + 4) = r2 (5 * i + 4) := h _ (by omega)
  simp only [unit_random, h0, h1, h2, h3, h4]

/-- C7: the program is deterministic. It never reseeds its random source
(`srand` is never called), so a run is a pure function of the startup
parameters, the worker count and the fixed `rand()` stream; the generator
reads exactly the first `5 * body_count` stream values, so any two runs
whose streams agree there — in particular two runs of the binary, which
always read the same default-seeded stream — produce identical output,
trace included. -/
theorem run_deterministic (M : MathLib) (rands1 rands2 : ℕ → ℕ)
    (w argc : ℕ) (cfg : Config)
    (hagree : ∀ i, i < 5 * cfg.body_count → rands1 i = rands2 i) :
    runLeader M rands1 w argc cfg = runLeader M rands2 w argc cfg := by
  have hstore : initialStore M rands1 argc cfg
      = initialStore M rands2 argc cfg := by
    unfold initialStore
    exact generate_debug_data_congr M _ _ _ hagree
  simp only [runLeader, hstore]

/-- Sample `rand()` stream agreeing with `rands0` on the first five values
only. -/
def randsB : ℕ → ℕ := fun k => if k < 5 then 0 else 7

/-- C7 witness: two concrete streams agreeing on the consumed prefix give
identical runs for the one-body configuration. -/
theorem run_deterministic_witness :
    runLeader M0 rands0 1 6 cfgW = runLeader M0 randsB 1 6 cfgW :=
  run_deterministic M0 rands0 randsB 1 6 cfgW (by with_unfolding_all decide)

/-- C8 (amended): for every strictly positive softening length and any
mathematically faithful `sqrtf` model (positive on positive inputs), the
quantity the kernel divides by is strictly positive — so no division by
zero occurs and the result is finite — for every pair of bodies, including
bodies at identical positions. With softening length exactly `0` and
identical positions this fails (see the counterexample). -/
theorem softened_kernel_no_div_by_zero (M : MathLib)
    (hsqrt : ∀ q : ℚ, 0 < q → 0 < M.sqrt q)
    (softening_length : ℚ) (hsl : 0 < softening_length)
    (first_body second_body : Body) :
    0 < gravityDenominator M (softening_length * softening_length)
        first_body second_body
    ∧ gravityDenominator M (softening_length * softening_length)
        first_body second_body ≠ 0 := by
  have main : ∀ rx ry : ℚ,
      0 < M.sqrt (((rx * rx + ry * ry) + softening_length * softening_length)
        * ((rx * rx + ry * ry) + softening_length * softening_length)
        * ((rx * rx + ry * ry) + softening_length * softening_length)) := by
    intro rx ry
    apply hsqrt
    have hx := mul_self_nonneg rx
    have hy := mul_self_nonneg ry
    have hs := mul_pos hsl hsl
    have hd2 : 0 < (rx * rx + ry * ry) + softening_length * softening_length := by
      linarith
    exact mul_pos (mul_pos hd2 hd2) hd2
  exact ⟨main _ _, (main _ _).ne.symm⟩

/-- C8 witness: with the identity as `sqrtf` model (which is positive on
positive inputs), softening length `1` and two bodies at the same position,
the kernel's denominator is positive. -/
theorem softened_kernel_no_div_by_zero_witness :
    (0 : ℚ) < 1
    ∧ 0 < gravityDenominator M0 (1 * 1) body0 body0 :=
  ⟨by decide,
    (softened_kernel_no_div_by_zero M0 (fun _ h => h) 1 (by decide)
      body0 body0).1⟩

/-- C8 counterexample: the claim admits softening length `0`. There, for
two bodies at identical positions, the softened squared distance is `0`;
`sqrtf(0) = 0` (the identity model agrees with `sqrtf` at `0`), so the
kernel computes `1.0f / 0.0f` — a division by zero with non-finite result,
refuting the claim for non-negative (rather than positive) softening. -/
theorem zero_softening_div_by_zero_counterexample :
    (0 : ℚ) ≤ 0
    ∧ M0.sqrt 0 = 0
    ∧ gravityDenominator M0 (0 * 0) body0 body0 = 0 := by
  with_unfolding_all decide

lemma length_generate (M : MathLib) (rands : ℕ → ℕ) (scale m0 : ℚ)
    (n : ℕ) : (generate_debug_data M rands scale m0 n).length = n := by
  simp [generate_debug_data]

lemma generate_mass_pos (M : MathLib) (rands : ℕ → ℕ) (scale m0 : ℚ)
    (n : ℕ) (hm0 : 0 < m0) :
    ∀ b ∈ generate_debug_data M rands scale m0 n, 0 < b.mass := by
  intro b hb
  unfold generate_debug_data at hb
  rw [List.mem_map] at hb
  obtain ⟨i, -, rfl⟩ := hb
  show 0 < m0 * (unit_random rands (5 * i + 3) + 1/2)
  have hu : 0 ≤ unit_random rands (5 * i + 3) := by
    unfold unit_random
    positivity
  exact mul_pos hm0 (by linarith)

lemma map_getD_range (store : List Body) (g : Body → ℚ) :
    (List.range store.length).map (fun i => g (store.getD i body0))
      = store.map g := by
  apply List.ext_getElem
  · simp
  · intro n h1 h2
    simp only [List.getElem_map, List.getElem_range]
    rw [List.getD_eq_getElem store body0 (by simpa using h2)]

lemma mass_map_allgatherStep (M : MathLib) (soft2 dt : ℚ) (n w : ℕ)
    (store : List Body) (h : w ∣ n) (hlen : store.length = n) :
    (allgatherStep M soft2 dt n w store).map Body.mass
      = store.map Body.mass := by
  have hone : ∀ start len : ℕ,
      (workerStep M soft2 dt start len store).map Body.mass
        = (List.range len).map
            (fun t => (store.getD (start + t) body0).mass) := by
    intro start len
    rw [workerStep_eq]
    unfold workerStepSpec
    rw [List.map_map]
    apply List.map_congr_left
    intro t _
    rfl
  unfold allgatherStep
  rw [List.map_flatMap]
  have h2 :
      (List.range w).flatMap (fun rank =>
          (workerStep M soft2 dt
            (slice_start rank (bodies_per_process n w))
            (bodies_per_process n w) store).map Body.mass)
        = (List.range w).flatMap (fun rank =>
            (List.range (bodies_per_process n w)).map
              (fun t => (store.getD
                (rank * bodies_per_process n w + t) body0).mass)) :=
    congrArg (List.range w).flatMap (funext fun rank => hone _ _)
  rw [h2]
  have h3 :
      (List.range w).flatMap (fun rank =>
          (List.range (bodies_per_process n w)).map
            (fun t => (store.getD
              (rank * bodies_per_process n w + t) body0).mass))
        = ((List.range w).flatMap (fun rank =>
            (List.range (bodies_per_process n w)).map
              (fun t => rank * bodies_per_process n w + t))).map
            (fun i => (store.getD i body0).mass) := by
    rw [List.map_flatMap]
    refine congrArg (List.range w).flatMap (funext fun rank => ?_)
    rw [List.map_map]
    rfl
  rw [h3, range_flatMap_partition]
  unfold bodies_per_process
  rw [Nat.mul_div_cancel' h, ← hlen, map_getD_range]

lemma mass_invariant_iterate (M : MathLib) (soft2 dt : ℚ) (n w : ℕ)
    (store0 : List Body) (h : w ∣ n) (hlen : store0.length = n) :
    ∀ k : ℕ,
      ((allgatherStep M soft2 dt n w)^[k] store0).map Body.mass
          = store0.map Body.mass
      ∧ ((allgatherStep M soft2 dt n w)^[k] store0).length = n := by
  intro k
  induction k with
  | zero => exact ⟨rfl, hlen⟩
  | succ k ih =>
    obtain ⟨ihm, ihl⟩ := ih
    refine ⟨?_, ?_⟩
    · rw [Function.iterate_succ_apply',
        mass_map_allgatherStep M soft2 dt n w _ h ihl, ihm]
    · rw [Function.iterate_succ_apply']
      exact length_allgatherStep M soft2 dt n w _ h

/-- C9 (amended): provided the `initial_body_mass` startup parameter is
strictly positive, every body's mass is strictly positive at creation and
after every simulation step, and no operation after creation mutates any
body's mass: the whole mass sequence of the store is invariant across
steps, and the Integrator leaves mass unchanged. Without that proviso the
claim fails (see the counterexample): the generator scales the unvalidated
CLI parameter. -/
theorem mass_positive_and_never_mutated (M : MathLib) (rands : ℕ → ℕ)
    (w argc : ℕ) (cfg : Config)
    (hm0 : 0 < cfg.initial_body_mass) (hdvd : w ∣ cfg.body_count) :
    (∀ k : ℕ, ∀ b ∈ (allgatherStep M (runSoft2 cfg) cfg.delta_time
        cfg.body_count w)^[k] (initialStore M rands argc cfg), 0 < b.mass)
    ∧ (∀ k : ℕ,
        ((allgatherStep M (runSoft2 cfg) cfg.delta_time cfg.body_count w)^[k]
            (initialStore M rands argc cfg)).map Body.mass
          = (initialStore M rands argc cfg).map Body.mass)
    ∧ (∀ (b : Body) (dt : ℚ), (integrate b dt).mass = b.mass) := by
  have hlen : (initialStore M rands argc cfg).length = cfg.body_count :=
    length_generate M rands _ _ _
  have hinv := mass_invariant_iterate M (runSoft2 cfg) cfg.delta_time
    cfg.body_count w (initialStore M rands argc cfg) hdvd hlen
  refine ⟨?_, fun k => (hinv k).1, fun b dt => rfl⟩
  intro k b hb
  have hmem : b.mass ∈ ((allgatherStep M (runSoft2 cfg) cfg.delta_time
      cfg.body_count w)^[k] (initialStore M rands argc cfg)).map Body.mass :=
    List.mem_map_of_mem Body.mass hb
  rw [(hinv k).1, List.mem_map] at hmem
  obtain ⟨b2, hb2, hmass⟩ := hmem
  rw [← hmass]
  exact generate_mass_pos M rands _ _ _ hm0 b2 hb2

/-- C9 witness: for the one-body valid configuration with unit initial
mass, the mass sequence after one full step equals the initial mass
sequence. -/
theorem mass_positive_witness :
    ((allgatherStep M0 (runSoft2 cfgW) cfgW.delta_time cfgW.body_count 1)^[1]
        (initialStore M0 rands0 6 cfgW)).map Body.mass
      = (initialStore M0 rands0 6 cfgW).map Body.mass :=
  (mass_positive_and_never_mutated M0 rands0 1 6 cfgW
    (by with_unfolding_all decide) (by decide)).2.1 1

/-- Configuration with `initial_body_mass = 0`, accepted by the program
without validation. -/
def cfgZeroMass : Config := ⟨1, 1, 1, 0, 1, 100⟩

/-- C9 counterexample: with `initial_body_mass = 0` the generator creates
a body of mass `0 * (u + 1/2) = 0`, so mass is not strictly positive at
every point of the run for every accepted configuration. -/
theorem zero_initial_mass_counterexample :
    0 < (initialStore M0 rands0 6 cfgZeroMass).length
    ∧ ¬ (0 < ((initialStore M0 rands0 6 cfgZeroMass).getD 0 body0).mass) := by
  with_unfolding_all decide

end NBody
